import Mathlib

/-!
Verification of the NepTUN device runtime against its specification.

Each section shallowly embeds one part of the Rust source
(`neptun/src/device/mod.rs`, `device/api.rs`, `device/peer.rs`,
`noise/timers.rs`) as executable Lean definitions and proves the spec
claims about them.  Machine integers are modelled as `Nat` with explicit
bounds where overflow matters; fallible operations return `Option` or an
explicit error sum; code paths that `panic!`/`assert!` are modelled as
`none`.  Components of the repository whose implementation files are not
available (the Noise handshake internals, `SafeDuration`, the allowed-IPs
trie, the rate limiter) are modelled from the specification text and are
marked as such in their doc comments.
-/

namespace Lfsr

/-- The 24-bit feedback polynomial `LFSR_POLY = 0xd80000` from
`IndexLfsr::next` in `device/mod.rs`. -/
def LFSR_POLY : Nat := 0xd80000

/-- One xorshift update of the 24-bit register, translating
`self.lfsr = (self.lfsr >> 1) ^ ((0u32.wrapping_sub(self.lfsr & 1)) & LFSR_POLY)`
from `IndexLfsr::next`: the mask `0 - (lfsr & 1)` is all-ones when the low
bit is set and zero otherwise, so the update xors in the polynomial
exactly when the shifted-out bit was 1. -/
def lfsrStep (s : Nat) : Nat :=
  if s % 2 = 1 then (s / 2) ^^^ LFSR_POLY else s / 2

/-- State of `IndexLfsr` (`device/mod.rs`): the construction seed
(`initial`), the current register (`lfsr`) and the output XOR `mask`. -/
structure LfsrState where
  initial : Nat
  lfsr : Nat
  mask : Nat
deriving Repr, DecidableEq

/-- Postcondition of `IndexLfsr::random_index`: a nonzero 24-bit value.
Both the seed and the mask are drawn with it in `IndexLfsr::default`. -/
def validIndex (n : Nat) : Prop := 1 ≤ n ∧ n ≤ 0xffffff

instance (n : Nat) : Decidable (validIndex n) := by
  unfold validIndex; infer_instance

/-- One call of `IndexLfsr::next`: computes `value = lfsr - 1`, advances
the register, and returns `value ^ mask`; the Rust
`assert!(self.lfsr != self.initial, "Too many peers created")` abort is
modelled as `none`. -/
def next (st : LfsrState) : Option (Nat × LfsrState) :=
  let value := st.lfsr - 1
  let l' := lfsrStep st.lfsr
  if l' = st.initial then none
  else some (value ^^^ st.mask, { st with lfsr := l' })

/-- The list of values produced by `n` successive successful calls to
`IndexLfsr::next`, together with the final generator state; `none` if any
of the calls hits the assertion. -/
def nextVals (st : LfsrState) : Nat → Option (List Nat × LfsrState)
  | 0 => some ([], st)
  | n + 1 =>
    (nextVals st n).bind fun p =>
      (next p.2).map fun q => (p.1 ++ [q.1], q.2)
/-- The value each call emits before the register advances:
`(lfsr - 1) ^ mask` with the register after `k` successful steps. -/
def emitVal (st : LfsrState) (k : Nat) : Nat :=
  (lfsrStep^[k] st.lfsr - 1) ^^^ st.mask

end Lfsr
namespace Timers

/-! Shallow embedding of `noise/timers.rs`.  Durations are modelled in
milliseconds as `Nat`; `SafeDuration` subtraction (its defining file is
not in the source tree) is modelled, following the spec's plain
"now minus timer" arithmetic on non-negative durations, as truncated
`Nat` subtraction.  `now` is the tunnel-relative current time
(`Instant::now().duration_since(time_started)`), passed as a parameter. -/

/-- REKEY_AFTER_TIME = 120 s, in ms. -/
def REKEY_AFTER_TIME : Nat := 120000
/-- REJECT_AFTER_TIME = 180 s, in ms. -/
def REJECT_AFTER_TIME : Nat := 180000
/-- REKEY_ATTEMPT_TIME = 90 s, in ms. -/
def REKEY_ATTEMPT_TIME : Nat := 90000
/-- REKEY_TIMEOUT = 5 s, in ms. -/
def REKEY_TIMEOUT : Nat := 5000
/-- KEEPALIVE_TIMEOUT = 10 s, in ms. -/
def KEEPALIVE_TIMEOUT : Nat := 10000
/-- COOKIE_EXPIRATION_TIME = 120 s, in ms. -/
def COOKIE_EXPIRATION_TIME : Nat := 120000

/-- Modelled from the spec: "sessions array of length N=4 (exact
constant)" (§4.3); the noise module file defining `N_SESSIONS` is not in
the source tree. -/
def N_SESSIONS : Nat := 4

/-- Modelled from the spec: the observable handshake flags that
`update_timers` consults — `is_expired`/`set_expired`, `has_cookie`/
`clear_cookie`, and `timer()` (the time, relative to tunnel start, at
which the in-flight initiation was sent, `none` when no initiation is in
flight).  The Noise handshake implementation file is not in the source
tree. -/
structure HandshakeM where
  expired : Bool
  hasCookie : Bool
  timeInitSent : Option Nat
deriving Repr, DecidableEq

/-- The `Timers` struct of `noise/timers.rs`: the named timer slots (ms
since tunnel start), the per-session timers, and the bookkeeping flags. -/
structure TimersState where
  isInitiator : Bool
  timeCurrent : Nat
  timeSessionEstablished : Nat
  timeLastHandshakeStarted : Nat
  timeLastPacketReceived : Nat
  timeLastPacketSent : Nat
  timeLastDataPacketReceived : Nat
  timeLastDataPacketSent : Nat
  timeCookieReceived : Nat
  timePersistentKeepalive : Nat
  sessionTimers : List Nat
  wantKeepalive : Bool
  wantHandshakeSince : Option Nat
  persistentKeepalive : Nat
  shouldResetRr : Bool
deriving Repr, DecidableEq

/-- The tunnel state visible to `update_timers`: the session slots (kept
abstract as their receiving indices), the queued-packet list (packets
abstract), the handshake flags, the timer bank, the current-session
cursor, and the rate limiter's per-second counter (modelled from the
spec: `reset_count` zeroes it). -/
structure TunnState where
  sessions : List (Option Nat)
  packetQueue : List Nat
  handshake : HandshakeM
  timers : TimersState
  current : Nat
  rateLimiterCount : Nat
deriving Repr, DecidableEq

/-- Errors of `update_timers`. -/
inductive WireGuardErrorM where
  | connectionExpired
deriving Repr, DecidableEq

/-- Result of `update_timers`.  `handshakeInitiation` models the tail
call `format_handshake_initiation(dst, true)` and `keepalivePacket` the
tail call `encapsulate(&[], dst)` (spec §4.5 step 9: "If handshake
flagged, emit handshake-init. Else if keepalive flagged, emit
empty-payload data"); both are implemented in noise files not in the
source tree. -/
inductive TunnResultM where
  | done
  | err (e : WireGuardErrorM)
  | handshakeInitiation
  | keepalivePacket
deriving Repr, DecidableEq

/-- `Timers::clear`: set every named timer to the current time, drop the
want-handshake mark and the want-keepalive flag (`session_timers` are not
touched). -/
def timersClear (now : Nat) (t : TimersState) : TimersState :=
  { t with
    timeCurrent := now
    timeSessionEstablished := now
    timeLastHandshakeStarted := now
    timeLastPacketReceived := now
    timeLastPacketSent := now
    timeLastDataPacketReceived := now
    timeLastDataPacketSent := now
    timeCookieReceived := now
    timePersistentKeepalive := now
    wantHandshakeSince := none
    wantKeepalive := false }

/-- `Tunn::clear_all`: drop every session, clear the packet queue, clear
the timers. -/
def clearAll (now : Nat) (s : TunnState) : TunnState :=
  { s with
    sessions := s.sessions.map fun _ => none
    packetQueue := []
    timers := timersClear now s.timers }

/-- `Tunn::update_session_timers`: any session whose timer is more than
REJECT_AFTER_TIME old is dropped and its timer reset to now. -/
def updateSessionTimers (now : Nat) (sessions : List (Option Nat))
    (sessionTimers : List Nat) : List (Option Nat) × List Nat :=
  ((sessions.zip sessionTimers).map fun p =>
      if now - p.2 > REJECT_AFTER_TIME then none else p.1,
    sessionTimers.map fun t =>
      if now - t > REJECT_AFTER_TIME then now else t)

/-- `Tunn::time_since_last_handshake`: `some` of the age of the current
session when one is present (checked subtraction), else `none`. -/
def timeSinceLastHandshake (s : TunnState) (now : Nat) : Option Nat :=
  if (s.sessions.getD (s.current % N_SESSIONS) none).isSome then
    if now < s.timers.timeSessionEstablished then none
    else some (now - s.timers.timeSessionEstablished)
  else none

/-- The final emission of `update_timers`: handshake initiation if
flagged, else a keepalive (empty-payload data) packet, else `Done`. -/
def emitAction (s : TunnState) (hir kr : Bool) : TunnState × TunnResultM :=
  if hir then (s, .handshakeInitiation)
  else if kr then (s, .keepalivePacket)
  else (s, .done)

/-- The part of `Tunn::update_timers` from `if let Some(time_init_sent) =
self.handshake.timer()` to the end of the function; `hir0` is the value
of `handshake_initiation_required` accumulated before it (set by the
REJECT_AFTER_TIME*3 block). -/
def updateTimersTail (s : TunnState) (now sessionEstablished
    handshakeStarted autPacketSent dataPacketReceived dataPacketSent
    persistentKeepalive : Nat) (hir0 : Bool) : TunnState × TunnResultM :=
  match s.handshake.timeInitSent with
  | some timeInitSent =>
    if now - handshakeStarted ≥ REKEY_ATTEMPT_TIME then
      let s1 := clearAll now s
      if persistentKeepalive > 0 then
        -- handshake_initiation_required is set; the REKEY_TIMEOUT check
        -- below can only re-set it
        let hir := true
        let hir := if now - timeInitSent ≥ REKEY_TIMEOUT then true else hir
        emitAction s1 hir false
      else
        ({ s1 with handshake := { s1.handshake with expired := true } },
          .err .connectionExpired)
    else
      let hir := if now - timeInitSent ≥ REKEY_TIMEOUT then true else hir0
      emitAction s hir false
  | none =>
    let hir := hir0
    let hir := if s.timers.isInitiator ∧
        sessionEstablished < dataPacketSent ∧
        now - sessionEstablished ≥ REKEY_AFTER_TIME then true else hir
    let hir := if s.timers.isInitiator ∧
        sessionEstablished < dataPacketReceived ∧
        now - sessionEstablished ≥
          REJECT_AFTER_TIME - KEEPALIVE_TIMEOUT - REKEY_TIMEOUT
      then true else hir
    let whsTriggered : Bool := match s.timers.wantHandshakeSince with
      | some since => decide (now - since ≥ KEEPALIVE_TIMEOUT + REKEY_TIMEOUT)
      | none => false
    let s := if whsTriggered then
        { s with timers := { s.timers with wantHandshakeSince := none } }
      else s
    let hir := if whsTriggered then true else hir
    if hir then emitAction s hir false
    else
      -- passive keepalive: mem::replace(&mut want_keepalive, false)
      let kr := if dataPacketReceived ≥ autPacketSent ∧
          now - autPacketSent ≥ KEEPALIVE_TIMEOUT then s.timers.wantKeepalive
        else false
      let s := if dataPacketReceived ≥ autPacketSent ∧
          now - autPacketSent ≥ KEEPALIVE_TIMEOUT then
          { s with timers := { s.timers with wantKeepalive := false } }
        else s
      -- persistent keepalive, with timer_tick(TimePersistentKeepalive)
      if persistentKeepalive > 0 ∧
          (now - s.timers.timePersistentKeepalive ≥
              persistentKeepalive * 1000 ∨
            timeSinceLastHandshake s now = none) then
        let s := { s with timers := { s.timers with
          timePersistentKeepalive := if now = 0 then 1 else now } }
        emitAction s hir true
      else
        emitAction s hir kr

/-- `Tunn::update_timers` (`noise/timers.rs`): rate-limiter reset,
current-time update, session-timer expiry, expired-handshake check,
cookie expiry, the REJECT_AFTER_TIME*3 teardown, and the retransmission /
rekey / keepalive discipline (continued in `updateTimersTail`). -/
def updateTimers (s0 : TunnState) (now : Nat) : TunnState × TunnResultM :=
  let s1 := if s0.timers.shouldResetRr then { s0 with rateLimiterCount := 0 }
    else s0
  let s2 := { s1 with timers := { s1.timers with timeCurrent := now } }
  let p := updateSessionTimers now s2.sessions s2.timers.sessionTimers
  let s3 := { s2 with
    sessions := p.1
    timers := { s2.timers with sessionTimers := p.2 } }
  let sessionEstablished := s3.timers.timeSessionEstablished
  let handshakeStarted := s3.timers.timeLastHandshakeStarted
  let autPacketSent := s3.timers.timeLastPacketSent
  let dataPacketReceived := s3.timers.timeLastDataPacketReceived
  let dataPacketSent := s3.timers.timeLastDataPacketSent
  let persistentKeepalive := s3.timers.persistentKeepalive
  if s3.handshake.expired then (s3, .err .connectionExpired)
  else
    let s4 := if s3.handshake.hasCookie ∧
        now - s3.timers.timeCookieReceived ≥ COOKIE_EXPIRATION_TIME then
        { s3 with handshake := { s3.handshake with hasCookie := false } }
      else s3
    if now - sessionEstablished ≥ REJECT_AFTER_TIME * 3 then
      let s5 := clearAll now s4
      if persistentKeepalive > 0 then
        updateTimersTail s5 now sessionEstablished handshakeStarted
          autPacketSent dataPacketReceived dataPacketSent
          persistentKeepalive true
      else
        ({ s5 with handshake := { s5.handshake with expired := true } },
          .err .connectionExpired)
    else
      updateTimersTail s4 now sessionEstablished handshakeStarted
        autPacketSent dataPacketReceived dataPacketSent
        persistentKeepalive false

/-- Witness state for the REJECT_AFTER_TIME*3 theorem: a live session, a
queued packet, no persistent keepalive, not expired. -/
def c1WitnessState : TunnState :=
  { sessions := [some 1, none, none, none]
    packetQueue := [7]
    handshake := { expired := false, hasCookie := false, timeInitSent := none }
    timers :=
      { isInitiator := false, timeCurrent := 0, timeSessionEstablished := 0
        timeLastHandshakeStarted := 0, timeLastPacketReceived := 0
        timeLastPacketSent := 0, timeLastDataPacketReceived := 0
        timeLastDataPacketSent := 0, timeCookieReceived := 0
        timePersistentKeepalive := 0, sessionTimers := [0, 0, 0, 0]
        wantKeepalive := false, wantHandshakeSince := none
        persistentKeepalive := 0, shouldResetRr := false }
    current := 0
    rateLimiterCount := 0 }

/-- A state whose handshake is already expired but whose packet queue is
not empty (reachable: packets are queued while no live session exists). -/
def c1CexState : TunnState :=
  { c1WitnessState with
    handshake := { expired := true, hasCookie := false, timeInitSent := none } }

end Timers

namespace UdpH

/-! Shallow embedding of the unconnected-UDP event handler loop of
`Device::register_udp_handler` (`device/mod.rs`).  The per-datagram
processing (rate limiting, parsing, peer lookup, Noise handling) is
abstracted into the datagram's *fate*: which of the loop's exit points it
takes.  Only the fate determines the loop control flow. -/

/-- `MAX_ITR` from `device/mod.rs`. -/
def MAX_ITR : Nat := 100

/-- The control-flow fate of one received datagram inside the handler
loop, one constructor per `continue` site of the Rust loop body plus one
for datagrams that reach the end of the body. -/
inductive DgramFate where
  /-- rate limiter asked for a cookie reply: sent, then `continue` -/
  | cookieReply
  /-- rate limiter rejected the packet: `continue` -/
  | dropRateLimited
  /-- `parse_incoming_packet` failed (no rate limiter): `continue` -/
  | dropUnparsable
  /-- no peer found by key or by index: `continue` -/
  | dropNoPeer
  /-- `handle_verified_packet` returned `Err`: `continue` -/
  | dropHandleErr
  /-- handled (`Done`/`WriteToNetwork`/`WriteToTunnel`): falls through to
  `iter -= 1; if iter == 0 break` -/
  | handled
deriving Repr, DecidableEq

/-- Whether the datagram reaches the end of the loop body, where the
`iter` counter is decremented. -/
def countsTowardLimit : DgramFate → Bool
  | .handled => true
  | _ => false

/-- What the event loop does after a handler returns (`enum Action` in
`device/mod.rs`). -/
inductive ActionM where
  | continueLoop
  | yieldLock
  | exitLoop
deriving Repr, DecidableEq

/-- The `while let Ok((packet_len, addr)) = udp.recv_from(..)` loop:
`pkts` are the datagrams available on the socket (the list's end models
`WouldBlock`); returns the list of datagrams consumed.  `continue` paths
skip the decrement of `iter`; the loop breaks when `iter` hits 0 after a
fully handled datagram. -/
def udpHandlerDrain : List DgramFate → Nat → List DgramFate
  | [], _ => []
  | d :: rest, iter =>
    if countsTowardLimit d then
      if iter - 1 = 0 then [d]
      else d :: udpHandlerDrain rest (iter - 1)
    else d :: udpHandlerDrain rest iter

/-- The handler body: drain with `iter = MAX_ITR`, then return
`Action::Continue`. -/
def registerUdpHandlerBody (pkts : List DgramFate) :
    List DgramFate × ActionM :=
  (udpHandlerDrain pkts MAX_ITR, .continueLoop)

/-- 101 datagrams that all fail parsing. -/
def c3CexInput : List DgramFate := List.replicate 101 .dropUnparsable

end UdpH

namespace Iface

/-! Shallow embedding of the buffer slicing of
`Device::register_read_iface_handler` (`device/mod.rs`). -/

/-- `MAX_PKT_SIZE` from `device/mod.rs`. -/
def MAX_PKT_SIZE : Nat := 1550

/-- `WG_HEADER_OFFSET` from `device/mod.rs`. -/
def WG_HEADER_OFFSET : Nat := 16

/-- Rust slice expression `&buffer[start..stop]` on a buffer of length
`len`: panics (modelled as `none`) unless `start ≤ stop ∧ stop ≤ len`. -/
def sliceRange (len start stop : Nat) : Option (Nat × Nat) :=
  if start ≤ stop ∧ stop ≤ len then some (start, stop) else none

/-- The two slice takes of one packet read in the TUN-reader handler:
the read target `buffer[WG_HEADER_OFFSET .. mtu + WG_HEADER_OFFSET]` of a
fresh `MAX_PKT_SIZE` buffer, and then
`buffer[WG_HEADER_OFFSET .. len + WG_HEADER_OFFSET]` for the destination
address parse, where `len` is the number of bytes the read returned.
`none` models an out-of-bounds slice panic. -/
def readIfaceSlices (mtu readLen : Nat) :
    Option ((Nat × Nat) × (Nat × Nat)) :=
  (sliceRange MAX_PKT_SIZE WG_HEADER_OFFSET (mtu + WG_HEADER_OFFSET)).bind
    fun r1 =>
      (sliceRange MAX_PKT_SIZE WG_HEADER_OFFSET
        (readLen + WG_HEADER_OFFSET)).map fun r2 => (r1, r2)

end Iface

namespace PeerM

/-! Shallow embedding of `Peer` from `device/peer.rs`.  Sockets are
identified by abstract ids (`Nat`); a call that shuts a socket down
reports the shut-down ids alongside the new state.  The tunnel behind the
mutex is kept abstract — none of the modelled operations touch it. -/

/-- A socket address: family flag plus an abstract address value. -/
structure SocketAddrM where
  isV4 : Bool
  addr : Nat
deriving Repr, DecidableEq

/-- The `Endpoint` struct: optional address, optional connected socket. -/
structure EndpointM where
  addr : Option SocketAddrM
  conn : Option Nat
deriving Repr, DecidableEq

/-- The `Peer` fields the modelled operations read or must preserve. -/
structure Peer where
  tunnel : Nat
  index : Nat
  endpoint : EndpointM
  allowedIps : List (Nat × Nat)
  presharedKey : Option Nat
deriving Repr, DecidableEq

/-- `Peer::set_endpoint`: no-op when the address is unchanged; otherwise
shut down and drop any connected socket and store the new address.  The
second component collects the ids of sockets shut down by the call. -/
def setEndpoint (p : Peer) (a : SocketAddrM) : Peer × List Nat :=
  if p.endpoint.addr = some a then (p, [])
  else
    match p.endpoint.conn with
    | some conn =>
      ({ p with endpoint := { addr := some a, conn := none } }, [conn])
    | none => ({ p with endpoint := { addr := some a, conn := none } }, [])

/-- Outcomes of the socket system operations performed by
`Peer::connect_endpoint`: creation, `set_reuse_address`, `bind`,
`set_nonblocking`, `connect`, `try_clone` (`make_external` and the
buffer-size tweak cannot fail). -/
structure SysEnv where
  newSock : Option Nat
  reuseOk : Bool
  bindOk : Bool
  nonblockOk : Bool
  connectOk : Bool
  cloneOf : Nat → Option Nat

/-- The `device::Error` variants reachable from `connect_endpoint`. -/
inductive ErrorM where
  /-- `Error::IoError` via `?` on any socket system operation -/
  | ioError
  /-- `Error::Connect("Connected")`: a connected socket already exists -/
  | connectAlready
  /-- `Error::InternalError("Peer endpoint was not specified")` -/
  | internalNoAddr
deriving Repr, DecidableEq

/-- `Peer::connect_endpoint`: fail if a connected socket exists or no
endpoint address is set; otherwise create a UDP socket of the address's
family, configure, connect it, store a clone in `endpoint.conn` and
return the socket.  Returns the peer state after the call together with
the result. -/
def connectEndpoint (p : Peer) (port : Nat) (sktBufferSize : Option Nat)
    (env : SysEnv) : Peer × Except ErrorM Nat :=
  if p.endpoint.conn.isSome then (p, .error .connectAlready)
  else
    match p.endpoint.addr with
    | none => (p, .error .internalNoAddr)
    | some _addr =>
      match env.newSock with
      | none => (p, .error .ioError)
      | some udpConn =>
        if env.reuseOk = false then (p, .error .ioError)
        else if env.bindOk = false then (p, .error .ioError)
        else if env.nonblockOk = false then (p, .error .ioError)
        else if env.connectOk = false then (p, .error .ioError)
        else
          match env.cloneOf udpConn with
          | none => (p, .error .ioError)
          | some cl =>
            ({ p with endpoint := { p.endpoint with conn := some cl } },
              .ok udpConn)

/-- Whether any of the six socket system operations fails. -/
def anyOpFails (env : SysEnv) : Bool :=
  env.newSock.isNone || !env.reuseOk || !env.bindOk || !env.nonblockOk ||
    !env.connectOk ||
    (match env.newSock with
     | some s => (env.cloneOf s).isNone
     | none => false)

/-- Witness peer: endpoint address set, no connected socket. -/
def witnessPeer : Peer :=
  { tunnel := 3, index := 9
    endpoint := { addr := some { isV4 := true, addr := 0x0a000001 }
                  conn := none }
    allowedIps := [(0x0a000000, 24)]
    presharedKey := some 5 }

/-- Witness environment in which every socket operation succeeds. -/
def witnessEnv : SysEnv :=
  { newSock := some 41, reuseOk := true, bindOk := true, nonblockOk := true
    connectOk := true, cloneOf := fun s => some (s + 1) }

end PeerM

namespace Api

/-! Shallow embedding of `api_exec` and `api_get` from `device/api.rs`.
The reader is a list of input lines, each including its trailing
newline; the writer is the list of output lines (newline-separated).
`hex::encode` (external crate) is modelled as lowercase hex. -/

/-- `ENOENT`, the errno for a closed device. -/
def ENOENT : Nat := 2
/-- `EIO`, the errno for an unrecognized command. -/
def EIO : Nat := 5
/-- `EINVAL`, the errno for a bad value. -/
def EINVAL : Nat := 22

/-- Lowercase hex digit of a nibble: digits map to ASCII 48-57, the
letters a-f to ASCII 97-102. -/
def hexDigit (n : Nat) : Char :=
  Char.ofNat (if n < 10 then 48 + n else 87 + n)

/-- Two lowercase hex digits of a byte. -/
def hexByte (b : Nat) : List Char := [hexDigit (b / 16), hexDigit (b % 16)]

/-- Modelled from the spec: "Hex encoding uses lowercase 64-char strings
for 32-byte keys" — the behaviour of the external `hex::encode` crate on
a byte string. -/
def encodeHexL : List Nat → List Char
  | [] => []
  | b :: bs => hexByte b ++ encodeHexL bs

/-- `hex::encode` as a `String`. -/
def encodeHex (bs : List Nat) : String := ⟨encodeHexL bs⟩

/-- Whether a character is a lowercase hex digit. -/
def isLowerHexChar (c : Char) : Bool :=
  (48 ≤ c.toNat && c.toNat ≤ 57) || (97 ≤ c.toNat && c.toNat ≤ 102)

/-- The per-peer data `api_get` reads (public key bytes from the peer
map key; preshared key; `persistent_keepalive()`;
`endpoint().addr` rendered; `allowed_ips()`; `last_handshake_time()`
split into seconds and nanoseconds; the rx/tx counters from
`stats()`). -/
structure PeerView where
  presharedKey : Option (List Nat)
  keepalive : Option Nat
  endpointAddr : Option String
  allowedIps : List (String × Nat)
  lastHandshake : Option (Nat × Nat)
  rxBytes : Nat
  txBytes : Nat
deriving Repr, DecidableEq

/-- The device data `api_exec`/`api_get` read. -/
structure DeviceView where
  keyPair : Option (List Nat × List Nat)
  listenPort : Nat
  fwmark : Option Nat
  peers : List (List Nat × PeerView)
  closed : Bool
deriving Repr, DecidableEq

/-- Zero or one output line from an optional value. -/
def optLine {α : Type} : Option α → (α → String) → List String
  | none, _ => []
  | some x, f => [f x]

/-- The lines `api_get` writes for one peer, in source order. -/
def peerLines (k : List Nat) (p : PeerView) : List String :=
  ("public_key=" ++ encodeHex k) ::
    (optLine p.presharedKey (fun key => "preshared_key=" ++ encodeHex key) ++
      optLine p.keepalive
        (fun ka => "persistent_keepalive_interval=" ++ toString ka) ++
      optLine p.endpointAddr (fun a => "endpoint=" ++ a) ++
      p.allowedIps.map
        (fun ip => "allowed_ip=" ++ ip.1 ++ "/" ++ toString ip.2) ++
      (match p.lastHandshake with
        | some t =>
          ["last_handshake_time_sec=" ++ toString t.1,
            "last_handshake_time_nsec=" ++ toString t.2]
        | none => []) ++
      ["rx_bytes=" ++ toString p.rxBytes,
        "tx_bytes=" ++ toString p.txBytes])

/-- All lines `api_get` writes, in source order. -/
def apiGetLines (d : DeviceView) : List String :=
  optLine d.keyPair (fun k => "private_key=" ++ encodeHex k.1) ++
    (if d.listenPort ≠ 0 then ["listen_port=" ++ toString d.listenPort]
      else []) ++
    optLine d.fwmark (fun m => "fwmark=" ++ toString m) ++
    (d.peers.map (fun kp => peerLines kp.1 kp.2)).join

/-- The trailing-line handling of `api_get`: it consumes the optional
blank line after `get=1`; EOF or a lone blank line yield status 0,
anything else `EINVAL`.  Returns `(status, lines consumed)`. -/
def apiGetStatus (rest : List String) : Nat × Nat :=
  match rest with
  | [] => (0, 0)
  | l :: _ => if l = "\n" then (0, 1) else (EINVAL, 1)

/-- `api_get`: writes the device dump, then resolves its status from the
line following the command.  Returns status, output lines, and how many
input lines it consumed. -/
def apiGet (d : DeviceView) (rest : List String) :
    Nat × List String × Nat :=
  ((apiGetStatus rest).1, apiGetLines d, (apiGetStatus rest).2)

/-- The `errno=<N>` trailer of every command:
`writeln!(writer, "errno={}\n", status)` emits the line `errno=N`
followed by a blank line. -/
def errnoLines (status : Nat) : List String :=
  ["errno=" ++ toString status, ""]

/-- `api_exec`: the command loop.  One iteration per input line while the
previous status is 0; a closed device answers `ENOENT`; `get=1` runs
`api_get`; `set=1` runs the set handler (passed in as `setH`, returning
status, updated device and lines consumed — `api_set` applies
configuration updates behind the device write lock); anything else
answers `EIO`.  Any nonzero status ends the loop. -/
def apiExec (setH : DeviceView → List String → Nat × DeviceView × Nat)
    (d : DeviceView) : List String → List String
  | [] => []
  | line :: rest =>
    if d.closed then errnoLines ENOENT
    else if line = "get=1\n" then
      let g := apiGet d rest
      g.2.1 ++ errnoLines g.1 ++
        (if g.1 = 0 then apiExec setH d (rest.drop g.2.2) else [])
    else if line = "set=1\n" then
      let s := setH d rest
      errnoLines s.1 ++
        (if s.1 = 0 then apiExec setH s.2.1 (rest.drop s.2.2) else [])
    else errnoLines EIO
termination_by l => l.length
decreasing_by
  all_goals simp [List.length_drop]
  all_goals omega

/-- A set handler that does nothing, for concrete evaluations. -/
def noopSetHandler : DeviceView → List String → Nat × DeviceView × Nat :=
  fun d _ => (0, d, 0)

/-- A closed device with no configuration. -/
def c6CexDevice : DeviceView :=
  { keyPair := none, listenPort := 0, fwmark := none, peers := []
    closed := true }

/-- The spec's enumeration of the `get=1` response (§6): `private_key`
(if a key pair is set), `listen_port` (if nonzero), `fwmark` (if set),
then per peer `public_key`, optional `preshared_key`, optional
`persistent_keepalive_interval`, optional `endpoint`, each
`allowed_ip=<addr>/<cidr>`, optional `last_handshake_time_sec` plus
`last_handshake_time_nsec`, then `rx_bytes` and `tx_bytes`. -/
def specPeerLines (k : List Nat) (p : PeerView) : List String :=
  ["public_key=" ++ encodeHex k] ++
    (match p.presharedKey with
      | some key => ["preshared_key=" ++ encodeHex key]
      | none => []) ++
    (match p.keepalive with
      | some ka => ["persistent_keepalive_interval=" ++ toString ka]
      | none => []) ++
    (match p.endpointAddr with
      | some a => ["endpoint=" ++ a]
      | none => []) ++
    (p.allowedIps.map fun ip =>
      "allowed_ip=" ++ ip.1 ++ "/" ++ toString ip.2) ++
    (match p.lastHandshake with
      | some t =>
        ["last_handshake_time_sec=" ++ toString t.1,
          "last_handshake_time_nsec=" ++ toString t.2]
      | none => []) ++
    ["rx_bytes=" ++ toString p.rxBytes] ++
    ["tx_bytes=" ++ toString p.txBytes]

/-- The device-level part of the spec's `get=1` enumeration. -/
def apiGetSpecLines (d : DeviceView) : List String :=
  (match d.keyPair with
    | some k => ["private_key=" ++ encodeHex k.1]
    | none => []) ++
  (match d.listenPort with
    | 0 => []
    | p => ["listen_port=" ++ toString p]) ++
  (match d.fwmark with
    | some m => ["fwmark=" ++ toString m]
    | none => []) ++
  (d.peers.map fun kp => specPeerLines kp.1 kp.2).join

/-- A concrete device snapshot exercising every optional field. -/
def c4WitnessDevice : DeviceView :=
  { keyPair := some (List.replicate 32 0xab, List.replicate 32 0xcd)
    listenPort := 51820
    fwmark := some 7
    peers :=
      [(List.replicate 32 1,
        { presharedKey := some (List.replicate 32 2)
          keepalive := some 25
          endpointAddr := some "10.0.0.2:51820"
          allowedIps := [("10.0.0.0", 24), ("192.168.0.0", 16)]
          lastHandshake := some (100, 17)
          rxBytes := 5, txBytes := 9 })]
    closed := false }

end Api

namespace Dev

/-! Shallow embedding of the peer bookkeeping of `Device`
(`device/mod.rs`): `new_peer`, `remove_peer` and `set_key`.  Keys,
addresses and sockets are abstract `Nat`s; `Arc` pointer identity is an
explicit `id` field drawn from a fresh counter.  The allowed-IPs trie
(its file is absent from src/) is modelled from the spec as a list of
(address, cidr, value) entries with overwrite-on-insert,
longest-prefix-free exact storage and removal by predicate (§4.1). -/

/-- `HANDSHAKE_RATE_LIMIT` from `device/mod.rs`. -/
def HANDSHAKE_RATE_LIMIT : Nat := 100

/-- Modelled from the spec: a rate limiter is characterized by the device
public key it validates MAC1 against and its per-second handshake
threshold (§4.2); its implementation file is absent from src/. -/
structure RateLimiterD where
  publicKey : Nat
  limit : Nat
deriving Repr, DecidableEq

/-- A peer as the device operations see it: `Arc` identity, receiver
index, connected socket, the tunnel's static keys and rate limiter
(behind the mutex), the peer static public key, and the construction
parameters. -/
structure PeerD where
  id : Nat
  index : Nat
  conn : Option Nat
  tunPrivate : Nat
  tunPublic : Nat
  tunRateLimiter : Option RateLimiterD
  peerStaticPublic : Nat
  keepalive : Option Nat
  presharedKey : Option Nat
  allowedIps : List (Nat × Nat)
deriving Repr, DecidableEq

/-- Modelled from the spec: one stored prefix of the allowed-IPs
structure — address, cidr and the peer (by id) it routes to. -/
structure AipEntry where
  addr : Nat
  cidr : Nat
  value : Nat
deriving Repr, DecidableEq

/-- Modelled from the spec: `insert(addr, cidr, value)` overwrites the
value at that prefix (" no duplicate stored prefixes (later insert
wins)"). -/
def aipInsert (t : List AipEntry) (addr cidr v : Nat) : List AipEntry :=
  ⟨addr, cidr, v⟩ :: t.filter fun e => !(e.addr = addr && e.cidr = cidr)

/-- Modelled from the spec: `remove(predicate)` drops the values
satisfying the predicate and keeps every other entry. -/
def aipRemove (t : List AipEntry) (pred : Nat → Bool) : List AipEntry :=
  t.filter fun e => !pred e.value

/-- The value stored at an exact prefix, if any. -/
def aipLookup (t : List AipEntry) (addr cidr : Nat) : Option Nat :=
  (t.find? fun e => e.addr = addr && e.cidr = cidr).map (·.value)

/-- `HashMap::insert`: the new binding shadows (replaces) any existing
binding of the key. -/
def mapInsert (m : List (Nat × PeerD)) (k : Nat) (v : PeerD) :
    List (Nat × PeerD) :=
  (k, v) :: m.filter fun e => e.1 ≠ k

/-- `HashMap::remove`. -/
def mapRemove (m : List (Nat × PeerD)) (k : Nat) : List (Nat × PeerD) :=
  m.filter fun e => e.1 ≠ k

/-- The device state the peer-management operations touch. -/
structure DeviceD where
  keyPair : Option (Nat × Nat)
  peers : List (Nat × PeerD)
  peersByIdx : List (Nat × PeerD)
  peersByIp : List AipEntry
  nextIndex : Lfsr.LfsrState
  rateLimiter : Option RateLimiterD
  freshId : Nat
  shutdownSockets : List Nat

/-- Failures of `Device::new_peer`. -/
inductive NewPeerErr where
  /-- the `IndexLfsr` assertion fired (index space exhausted) -/
  | lfsrExhausted
  /-- `Error::InternalError("No device keypair specified for a peer")` -/
  | noKeyPair
deriving Repr, DecidableEq

/-- `Device::new_peer`: draw a fresh index, require a device key pair,
build the peer (`Tunn::new` with the device private key, the peer public
key, the preshared key and keepalive; fresh `Arc`), then insert it into
the by-key map, the by-index map, and the allowed-IP structure for each
of its allowed IPs. -/
def newPeer (d : DeviceD) (pubKey : Nat) (allowedIps : List (Nat × Nat))
    (keepalive : Option Nat) (presharedKey : Option Nat) :
    Except NewPeerErr (PeerD × DeviceD) :=
  match Lfsr.next d.nextIndex with
  | none => .error .lfsrExhausted
  | some (nextIdx, lfsr') =>
    match d.keyPair with
    | none => .error .noKeyPair
    | some kp =>
      let peer : PeerD :=
        { id := d.freshId, index := nextIdx, conn := none
          tunPrivate := kp.1, tunPublic := kp.2, tunRateLimiter := none
          peerStaticPublic := pubKey, keepalive := keepalive
          presharedKey := presharedKey, allowedIps := allowedIps }
      .ok (peer,
        { d with
          nextIndex := lfsr'
          freshId := d.freshId + 1
          peers := mapInsert d.peers pubKey peer
          peersByIdx := mapInsert d.peersByIdx nextIdx peer
          peersByIp := allowedIps.foldl
            (fun t ip => aipInsert t ip.1 ip.2 peer.id) d.peersByIp })

/-- `Device::remove_peer`: if the key is present, remove the peer from
the by-key map, shut down its connected endpoint socket, remove it from
the by-index map, and drop its entries from the allowed-IP structure
(removal by `Arc::ptr_eq`). -/
def removePeer (d : DeviceD) (pubKey : Nat) : DeviceD :=
  match d.peers.lookup pubKey with
  | none => d
  | some peer =>
    let d1 := { d with peers := mapRemove d.peers pubKey }
    let d2 := match peer.conn with
      | some c => { d1 with shutdownSockets := d1.shutdownSockets ++ [c] }
      | none => d1
    let d3 := { d2 with peersByIdx := mapRemove d2.peersByIdx peer.index }
    { d3 with peersByIp := aipRemove d3.peersByIp fun v => v = peer.id }

/-- Modelled from the spec: `Tunn::set_static_private(priv, pub,
rate_limiter)` "fails if key incompatible with stored peer key" (§4.3);
`compatible` is the abstract compatibility check of the absent noise
module.  On success the tunnel's static keys and rate limiter are
replaced. -/
def setStaticPrivate (compatible : Nat → Nat → Bool) (priv pub : Nat)
    (rl : Option RateLimiterD) (p : PeerD) : Option PeerD :=
  if compatible priv p.peerStaticPublic then
    some { p with
      tunPrivate := priv
      tunPublic := pub
      tunRateLimiter := rl }
  else none

/-- `Device::set_key`: derive the public key; if it equals the stored
one, return with the device unchanged; otherwise build a new rate
limiter with `HANDSHAKE_RATE_LIMIT`, call `set_static_private` on every
peer's tunnel (collecting failures as bad peers), install the key pair
and the rate limiter — and then hit `unimplemented!()` (modelled as
`none`) if any peer was bad. -/
def setKey (compatible : Nat → Nat → Bool) (derivePub : Nat → Nat)
    (d : DeviceD) (privateKey : Nat) : Option DeviceD :=
  let publicKey := derivePub privateKey
  if some publicKey = d.keyPair.map (·.2) then some d
  else
    let rateLimiter : RateLimiterD :=
      { publicKey := publicKey, limit := HANDSHAKE_RATE_LIMIT }
    let results := d.peers.map fun kv =>
      (kv.1, setStaticPrivate compatible privateKey publicKey
        (some rateLimiter) kv.2, kv.2)
    if results.all fun r => r.2.1.isSome then
      some { d with
        peers := results.map fun r => (r.1, r.2.1.getD r.2.2)
        keyPair := some (privateKey, publicKey)
        rateLimiter := some rateLimiter }
    else none

/-- A concrete peer for witnesses. -/
def witnessPeerD : PeerD :=
  { id := 0
    index := 5
    conn := some 33
    tunPrivate := 11
    tunPublic := 12
    tunRateLimiter := none
    peerStaticPublic := 21
    keepalive := none
    presharedKey := none
    allowedIps := [(0x0a000000, 24)] }

/-- A concrete device with a key pair and one peer, for witnesses. -/
def witnessDevice : DeviceD :=
  { keyPair := some (11, 12)
    peers := [(21, witnessPeerD)]
    peersByIdx := [(5, witnessPeerD)]
    peersByIp := [⟨0x0a000000, 24, 0⟩]
    nextIndex := { initial := 1, lfsr := 1, mask := 1 }
    rateLimiter := none
    freshId := 1
    shutdownSockets := [] }

end Dev

namespace Lfsr

theorem lfsrStep_lt {s : Nat} (h : s < 2 ^ 24) : lfsrStep s < 2 ^ 24 := by
  unfold lfsrStep
  split
  · exact Nat.xor_lt_two_pow (by omega) (by norm_num [LFSR_POLY])
  · omega

theorem lfsrStep_testBit_of_odd {s : Nat} (hs : s < 2 ^ 24) (h : s % 2 = 1) :
    (lfsrStep s).testBit 23 = true := by
  unfold lfsrStep
  rw [if_pos h, Nat.testBit_xor,
    Nat.testBit_lt_two_pow (x := s / 2) (i := 23) (by omega)]
  decide

theorem lfsrStep_pos {s : Nat} (h1 : 1 ≤ s) (h2 : s < 2 ^ 24) :
    1 ≤ lfsrStep s := by
  rcases Nat.mod_two_eq_zero_or_one s with he | ho
  · unfold lfsrStep
    rw [if_neg (by omega)]
    omega
  · have := Nat.testBit_implies_ge (lfsrStep_testBit_of_odd h2 ho)
    omega

theorem lfsrStep_inj {s t : Nat} (hs : s < 2 ^ 24) (ht : t < 2 ^ 24)
    (h : lfsrStep s = lfsrStep t) : s = t := by
  rcases Nat.mod_two_eq_zero_or_one s with hse | hso <;>
    rcases Nat.mod_two_eq_zero_or_one t with hte | hto
  · unfold lfsrStep at h
    rw [if_neg (by omega), if_neg (by omega)] at h
    omega
  · exfalso
    have h1 : (lfsrStep s).testBit 23 = false := by
      unfold lfsrStep
      rw [if_neg (by omega)]
      exact Nat.testBit_lt_two_pow (by omega)
    rw [h, lfsrStep_testBit_of_odd ht hto] at h1
    simp at h1
  · exfalso
    have h1 : (lfsrStep t).testBit 23 = false := by
      unfold lfsrStep
      rw [if_neg (by omega)]
      exact Nat.testBit_lt_two_pow (by omega)
    rw [← h, lfsrStep_testBit_of_odd hs hso] at h1
    simp at h1
  · unfold lfsrStep at h
    rw [if_pos hso, if_pos hto] at h
    have h2 : s / 2 = t / 2 := by
      have := congrArg (· ^^^ LFSR_POLY) h
      simpa [Nat.xor_assoc] using this
    omega

/-- Every iterate of the register stays a nonzero 24-bit value. -/
theorem iterate_validIndex {s : Nat} (h : validIndex s) (k : Nat) :
    validIndex (lfsrStep^[k] s) := by
  induction k with
  | zero => exact h
  | succ k ih =>
    rw [Function.iterate_succ_apply']
    obtain ⟨h1, h2⟩ := ih
    have hlt : lfsrStep^[k] s < 2 ^ 24 := by omega
    have := lfsrStep_pos h1 hlt
    have := lfsrStep_lt hlt
    exact ⟨by omega, by omega⟩

/-- Two equal iterates force the register to revisit its start value. -/
theorem iterate_eq_shift {s : Nat} (hv : validIndex s) :
    ∀ i j, i ≤ j → lfsrStep^[i] s = lfsrStep^[j] s →
      s = lfsrStep^[j - i] s := by
  intro i
  induction i with
  | zero => intro j _ h; simpa using h
  | succ i ih =>
    intro j hij h
    match j, hij with
    | j + 1, hij =>
      rw [Function.iterate_succ_apply', Function.iterate_succ_apply'] at h
      have hi : (lfsrStep^[i] s) < 2 ^ 24 := by
        obtain ⟨_, h2⟩ := iterate_validIndex hv i; omega
      have hj : (lfsrStep^[j] s) < 2 ^ 24 := by
        obtain ⟨_, h2⟩ := iterate_validIndex hv j; omega
      have := ih j (by omega) (lfsrStep_inj hi hj h)
      simpa [Nat.succ_sub_succ] using this

/-- Unfolding of a successful `nextVals` run: the emitted values are the
`emitVal` sequence, the final register is the `n`-th iterate, and no
intermediate register value hits the construction seed. -/
theorem nextVals_eq {st : LfsrState} :
    ∀ {n vs s'}, nextVals st n = some (vs, s') →
      vs = (List.range n).map (emitVal st) ∧
      s' = { st with lfsr := lfsrStep^[n] st.lfsr } ∧
      ∀ k, 1 ≤ k → k ≤ n → lfsrStep^[k] st.lfsr ≠ st.initial := by
  intro n
  induction n with
  | zero =>
    intro vs s' h
    simp only [nextVals, Option.some.injEq, Prod.mk.injEq] at h
    refine ⟨h.1.symm, ?_, by omega⟩
    cases st; simp at h ⊢; exact h.2.symm
  | succ n ih =>
    intro vs s' h
    simp only [nextVals, Option.bind_eq_some] at h
    obtain ⟨⟨vs0, s0⟩, h0, h1⟩ := h
    obtain ⟨hvs0, hs0, hsucc⟩ := ih h0
    subst hs0
    by_cases hini : lfsrStep (lfsrStep^[n] st.lfsr) = st.initial
    · simp [next, hini] at h1
    · simp [next, hini] at h1
      obtain ⟨h2, h3⟩ := h1
      subst h2
      subst h3
      refine ⟨?_, ?_, ?_⟩
      · rw [List.range_succ, List.map_append, hvs0]
        rfl
      · simp [Function.iterate_succ_apply']
      · intro k hk1 hkn
        rcases Nat.lt_or_ge k (n + 1) with hlt | hge
        · exact hsucc k hk1 (by omega)
        · have : k = n + 1 := by omega
          subst this
          rw [Function.iterate_succ_apply']
          exact hini

end Lfsr

/-- C2: for every `IndexLfsr` instance with a nonzero 24-bit seed and a
mask produced at construction (`random_index`, hence nonzero 24-bit), the
values returned by successive successful calls to `next()` are pairwise
distinct — so no duplicates occur before the generator aborts at
wrap-around — and every emitted value fits in 24 bits. -/
theorem lfsr_next_no_duplicates (st : Lfsr.LfsrState) (n : Nat)
    (vs : List Nat) (s' : Lfsr.LfsrState)
    (hseed : Lfsr.validIndex st.initial)
    (hstart : st.lfsr = st.initial)
    (hmask : Lfsr.validIndex st.mask)
    (hrun : Lfsr.nextVals st n = some (vs, s')) :
    vs.Nodup ∧ ∀ v ∈ vs, v < 2 ^ 24 := by
  obtain ⟨hvs, _, hsucc⟩ := Lfsr.nextVals_eq hrun
  have hv : Lfsr.validIndex st.lfsr := hstart ▸ hseed
  have hemit_ne : ∀ i j, i < j → j < n →
      Lfsr.emitVal st i ≠ Lfsr.emitVal st j := by
    intro i j hij hjn heq
    unfold Lfsr.emitVal at heq
    have h1 : Lfsr.lfsrStep^[i] st.lfsr - 1 = Lfsr.lfsrStep^[j] st.lfsr - 1 := by
      have := congrArg (· ^^^ st.mask) heq
      simpa [Nat.xor_assoc] using this
    have hvi := Lfsr.iterate_validIndex hv i
    have hvj := Lfsr.iterate_validIndex hv j
    have h2 : Lfsr.lfsrStep^[i] st.lfsr = Lfsr.lfsrStep^[j] st.lfsr := by
      obtain ⟨hi1, _⟩ := hvi; obtain ⟨hj1, _⟩ := hvj; omega
    have h3 := Lfsr.iterate_eq_shift hv i j (by omega) h2
    exact hsucc (j - i) (by omega) (by omega) (by rw [← h3, hstart])
  constructor
  · rw [hvs]
    refine List.Nodup.map_on ?_ (List.nodup_range n)
    intro i hi j hj hij
    simp only [List.mem_range] at hi hj
    by_contra hne
    rcases Nat.lt_or_ge i j with h | h
    · exact hemit_ne i j h hj hij
    · exact hemit_ne j i (by omega) hi hij.symm
  · intro v hv'
    rw [hvs] at hv'
    simp only [List.mem_map, List.mem_range] at hv'
    obtain ⟨k, hk, hvk⟩ := hv'
    subst hvk
    unfold Lfsr.emitVal
    obtain ⟨_, h2⟩ := Lfsr.iterate_validIndex hv k
    exact Nat.xor_lt_two_pow (by omega) (by obtain ⟨_, hm⟩ := hmask; omega)

/-- Witness for C2: a concrete three-call run of the generator from seed 1
with mask 1. -/
theorem lfsr_next_no_duplicates_witness :
    ([1, 0xd7fffe, 0x6bfffe] : List Nat).Nodup ∧
      ∀ v ∈ ([1, 0xd7fffe, 0x6bfffe] : List Nat), v < 2 ^ 24 :=
  lfsr_next_no_duplicates ⟨1, 1, 1⟩ 3 [1, 0xd7fffe, 0x6bfffe]
    ⟨1, 0x360000, 1⟩ (by decide) rfl (by decide) (by decide)

namespace Timers

/-- In the tail of `update_timers`, once `handshake_initiation_required`
is set (and persistent keepalive is on, so the REKEY_ATTEMPT branch
cannot expire the tunnel), the call ends in a handshake initiation and
neither re-populates the session slots nor the packet queue. -/
theorem updateTimersTail_hir (s : TunnState) (now se hs aps dpr dps pk : Nat)
    (hpk : pk > 0) :
    (updateTimersTail s now se hs aps dpr dps pk true).2 =
        .handshakeInitiation ∧
      ((∀ x ∈ s.sessions, x = none) →
        ∀ x ∈ (updateTimersTail s now se hs aps dpr dps pk true).1.sessions,
          x = none) ∧
      (s.packetQueue = [] →
        (updateTimersTail s now se hs aps dpr dps pk true).1.packetQueue
          = []) := by
  unfold updateTimersTail
  cases hti : s.handshake.timeInitSent with
  | some t =>
    simp only [emitAction, clearAll, timersClear, ite_self]
    split_ifs <;> simp_all [List.mem_map]
  | none =>
    simp only [emitAction, clearAll, timersClear, ite_self]
    split_ifs <;> simp_all [List.mem_map]

end Timers

namespace Timers

theorem clearAll_sessions_none (now : Nat) (st : TunnState) :
    ∀ x ∈ (clearAll now st).sessions, x = none := by
  intro x hx
  rcases List.mem_map.mp hx with ⟨a, _, h⟩
  exact h.symm

theorem clearAll_packetQueue (now : Nat) (st : TunnState) :
    (clearAll now st).packetQueue = [] := rfl

end Timers

/-- C1 (amended): provided the handshake is not already expired when
`update_timers` runs (an already-expired handshake returns
`Err(ConnectionExpired)` immediately, before any clearing), if the
current session's age `now - TimeSessionEstablished` is at least
`3 * REJECT_AFTER_TIME` (540 s) then `update_timers` clears all sessions
and the packet queue, and then emits a handshake initiation if the
persistent keepalive is positive, and otherwise marks the handshake
expired and returns `Err(ConnectionExpired)`. -/
theorem update_timers_reject_after_3 (s : Timers.TunnState) (now : Nat)
    (hexp : s.handshake.expired = false)
    (hage : now - s.timers.timeSessionEstablished ≥
      Timers.REJECT_AFTER_TIME * 3) :
    (∀ x ∈ (Timers.updateTimers s now).1.sessions, x = none) ∧
      (Timers.updateTimers s now).1.packetQueue = [] ∧
      (if s.timers.persistentKeepalive > 0 then
        (Timers.updateTimers s now).2 = .handshakeInitiation
      else
        (Timers.updateTimers s now).2 = .err .connectionExpired ∧
          (Timers.updateTimers s now).1.handshake.expired = true) := by
  have htail := fun (st : Timers.TunnState)
      (hpk : 0 < s.timers.persistentKeepalive) =>
    Timers.updateTimersTail_hir st now s.timers.timeSessionEstablished
      s.timers.timeLastHandshakeStarted s.timers.timeLastPacketSent
      s.timers.timeLastDataPacketReceived s.timers.timeLastDataPacketSent
      s.timers.persistentKeepalive hpk
  by_cases hrr : s.timers.shouldResetRr = true <;>
    by_cases hck : (s.handshake.hasCookie = true ∧
      now - s.timers.timeCookieReceived ≥ Timers.COOKIE_EXPIRATION_TIME) <;>
    by_cases hpk : 0 < s.timers.persistentKeepalive <;>
    simp only [Timers.updateTimers, Timers.updateSessionTimers, hrr, hck,
      hexp, hpk, hage, ge_iff_le, gt_iff_lt, if_true, if_false, reduceIte,
      and_self, ite_true, ite_false, Bool.false_eq_true,
      not_false_eq_true] <;>
    first
      | exact ⟨fun x hx => Timers.clearAll_sessions_none now _ x hx,
          rfl, trivial⟩
      | exact ⟨fun x hx => Timers.clearAll_sessions_none now _ x hx,
          rfl, rfl, rfl⟩
      | (obtain ⟨ha, hb, hc⟩ := htail _ hpk
         refine ⟨?_, hc (Timers.clearAll_packetQueue now _), ha⟩
         intro x hx
         exact hb (Timers.clearAll_sessions_none now _) x hx)

/-- Witness for C1: the amended theorem applied to a concrete state with
a live session, a queued packet and no persistent keepalive, 540 s after
session establishment. -/
theorem update_timers_reject_after_3_witness :
    (∀ x ∈ (Timers.updateTimers Timers.c1WitnessState 540000).1.sessions,
        x = none) ∧
      (Timers.updateTimers Timers.c1WitnessState 540000).1.packetQueue
        = [] ∧
      (if Timers.c1WitnessState.timers.persistentKeepalive > 0 then
        (Timers.updateTimers Timers.c1WitnessState 540000).2 =
          .handshakeInitiation
      else
        (Timers.updateTimers Timers.c1WitnessState 540000).2 =
            .err .connectionExpired ∧
          (Timers.updateTimers Timers.c1WitnessState
            540000).1.handshake.expired = true) :=
  update_timers_reject_after_3 Timers.c1WitnessState 540000 rfl (by decide)

/-- Counterexample for C1 as stated: on a state whose handshake is
already expired, `update_timers` at session age 540 s ≥ 3×REJECT_AFTER
returns without clearing — the packet queue stays non-empty. -/
theorem update_timers_reject_after_3_cex :
    540000 - Timers.c1CexState.timers.timeSessionEstablished ≥
        Timers.REJECT_AFTER_TIME * 3 ∧
      (Timers.updateTimers Timers.c1CexState 540000).1.packetQueue ≠ [] := by
  decide

namespace UdpH

theorem udpHandlerDrain_countP_le (pkts : List DgramFate) :
    ∀ iter, 0 < iter →
      (udpHandlerDrain pkts iter).countP countsTowardLimit ≤ iter := by
  induction pkts with
  | nil => intro iter _; simp [udpHandlerDrain]
  | cons d rest ih =>
    intro iter hpos
    unfold udpHandlerDrain
    by_cases hc : countsTowardLimit d
    · rw [if_pos hc]
      by_cases h0 : iter - 1 = 0
      · rw [if_pos h0]
        simp [List.countP_cons, hc]
        omega
      · rw [if_neg h0]
        have := ih (iter - 1) (by omega)
        simp [List.countP_cons, hc]
        omega
    · rw [if_neg hc]
      have := ih iter hpos
      simp [List.countP_cons, hc]
      omega

end UdpH

/-- C3 (amended): on every incoming datagram stream the unconnected-UDP
handler returns `Action::Continue`, and it consumes at most
`MAX_ITR = 100` datagrams *that complete processing*; datagrams dropped
on a `continue` path (rate-limited, cookie-replied, unparsable, unknown
peer, or failing `handle_verified_packet`) do not count toward the
limit. -/
theorem udp_handler_bounded_handled (pkts : List UdpH.DgramFate) :
    (UdpH.registerUdpHandlerBody pkts).2 = .continueLoop ∧
      ((UdpH.registerUdpHandlerBody pkts).1.countP
        UdpH.countsTowardLimit) ≤ UdpH.MAX_ITR :=
  ⟨rfl, UdpH.udpHandlerDrain_countP_le pkts UdpH.MAX_ITR (by decide)⟩

/-- Counterexample for C3 as stated: a stream of 101 unparsable datagrams
is consumed in full — more than `MAX_ITR = 100` — in a single handler
invocation, because the `continue` paths skip the `iter` decrement. -/
theorem udp_handler_more_than_max_itr_cex :
    (UdpH.registerUdpHandlerBody UdpH.c3CexInput).1.length = 101 ∧
      101 > UdpH.MAX_ITR := by
  constructor
  · rfl
  · decide

/-- C10: with the device MTU `m` at most
`MAX_PKT_SIZE - WG_HEADER_OFFSET = 1534`, both buffer slices taken by the
TUN read-interface handler on a fresh `MAX_PKT_SIZE`-byte buffer are in
bounds (no slice panic), for every read length `len ≤ m`. -/
theorem read_iface_slices_in_bounds (mtu readLen : Nat)
    (hmtu : mtu ≤ Iface.MAX_PKT_SIZE - Iface.WG_HEADER_OFFSET)
    (hlen : readLen ≤ mtu) :
    Iface.MAX_PKT_SIZE - Iface.WG_HEADER_OFFSET = 1534 ∧
      (Iface.readIfaceSlices mtu readLen).isSome = true := by
  refine ⟨rfl, ?_⟩
  unfold Iface.readIfaceSlices Iface.sliceRange
  rw [if_pos, if_pos]
  · rfl
  · unfold Iface.MAX_PKT_SIZE Iface.WG_HEADER_OFFSET at *
    omega
  · unfold Iface.MAX_PKT_SIZE Iface.WG_HEADER_OFFSET at *
    omega

/-- Witness for C10: the default-like MTU 1500 with a 1400-byte read. -/
theorem read_iface_slices_in_bounds_witness :
    Iface.MAX_PKT_SIZE - Iface.WG_HEADER_OFFSET = 1534 ∧
      (Iface.readIfaceSlices 1500 1400).isSome = true :=
  read_iface_slices_in_bounds 1500 1400 (by decide) (by decide)

/-- C7: `set_endpoint(addr)` is a no-op (both `addr` and `conn`
unchanged, nothing shut down) when the stored endpoint address already
equals `addr`; otherwise it shuts down and drops any existing connected
socket and stores `addr`, leaving every other peer field (tunnel, index,
allowed IPs, preshared key) unchanged. -/
theorem set_endpoint_spec (p : PeerM.Peer) (a : PeerM.SocketAddrM) :
    if p.endpoint.addr = some a then PeerM.setEndpoint p a = (p, [])
    else
      PeerM.setEndpoint p a =
        ({ p with endpoint := { addr := some a, conn := none } },
          p.endpoint.conn.toList) := by
  by_cases h : p.endpoint.addr = some a
  · simp [PeerM.setEndpoint, h]
  · rcases hc : p.endpoint.conn with _ | c <;>
      simp [PeerM.setEndpoint, h, hc, Option.toList]

/-- C8: `connect_endpoint` errs exactly when a connected socket already
exists, the endpoint address is unset, or a socket system operation
fails; on the already-connected and no-address error branches the peer
(in particular its endpoint record) is unchanged; and on success the
returned socket is the newly created one and a clone of it is stored in
`endpoint.conn`, everything else unchanged. -/
theorem connect_endpoint_spec (p : PeerM.Peer) (port : Nat)
    (sktBufferSize : Option Nat) (env : PeerM.SysEnv) :
    (((PeerM.connectEndpoint p port sktBufferSize env).2.isOk = false) ↔
      (p.endpoint.conn.isSome = true ∨ p.endpoint.addr = none ∨
        PeerM.anyOpFails env = true)) ∧
    (if p.endpoint.conn.isSome = true ∨ p.endpoint.addr = none then
      (PeerM.connectEndpoint p port sktBufferSize env).1 = p
     else True) ∧
    (match (PeerM.connectEndpoint p port sktBufferSize env).2 with
     | .ok sock =>
        env.newSock = some sock ∧
          (PeerM.connectEndpoint p port sktBufferSize env).1 =
            { p with endpoint :=
              { p.endpoint with conn := env.cloneOf sock } }
     | .error _ => True) := by
  unfold PeerM.connectEndpoint PeerM.anyOpFails
  rcases hconn : p.endpoint.conn with _ | c <;>
    rcases haddr : p.endpoint.addr with _ | a <;>
    rcases hns : env.newSock with _ | sk <;>
    simp_all [Except.isOk, Except.toBool] <;>
    rcases hr : env.reuseOk <;> rcases hb : env.bindOk <;>
    rcases hn : env.nonblockOk <;> rcases hc : env.connectOk <;>
    simp_all [Except.isOk, Except.toBool] <;>
    rcases hcl : env.cloneOf sk with _ | cl <;>
    simp_all [Except.isOk, Except.toBool]

/-- Witness for C7: a concrete peer whose endpoint address differs from
the new address. -/
theorem set_endpoint_spec_witness :
    if PeerM.witnessPeer.endpoint.addr =
        some { isV4 := true, addr := 0x0a000002 } then
      PeerM.setEndpoint PeerM.witnessPeer
          { isV4 := true, addr := 0x0a000002 } =
        (PeerM.witnessPeer, [])
    else
      PeerM.setEndpoint PeerM.witnessPeer
          { isV4 := true, addr := 0x0a000002 } =
        ({ PeerM.witnessPeer with endpoint :=
            { addr := some { isV4 := true, addr := 0x0a000002 }
              conn := none } },
          PeerM.witnessPeer.endpoint.conn.toList) :=
  set_endpoint_spec PeerM.witnessPeer { isV4 := true, addr := 0x0a000002 }

/-- Witness for C8: the theorem at a concrete peer with an address and no
connection, in an environment where every socket operation succeeds. -/
theorem connect_endpoint_spec_witness :
    (((PeerM.connectEndpoint PeerM.witnessPeer 51820 none
        PeerM.witnessEnv).2.isOk = false) ↔
      (PeerM.witnessPeer.endpoint.conn.isSome = true ∨
        PeerM.witnessPeer.endpoint.addr = none ∨
        PeerM.anyOpFails PeerM.witnessEnv = true)) ∧
    (if PeerM.witnessPeer.endpoint.conn.isSome = true ∨
        PeerM.witnessPeer.endpoint.addr = none then
      (PeerM.connectEndpoint PeerM.witnessPeer 51820 none
        PeerM.witnessEnv).1 = PeerM.witnessPeer
     else True) ∧
    (match (PeerM.connectEndpoint PeerM.witnessPeer 51820 none
        PeerM.witnessEnv).2 with
     | .ok sock =>
        PeerM.witnessEnv.newSock = some sock ∧
          (PeerM.connectEndpoint PeerM.witnessPeer 51820 none
            PeerM.witnessEnv).1 =
            { PeerM.witnessPeer with endpoint :=
              { PeerM.witnessPeer.endpoint with
                conn := PeerM.witnessEnv.cloneOf sock } }
     | .error _ => True) :=
  connect_endpoint_spec PeerM.witnessPeer 51820 none PeerM.witnessEnv

namespace Api

theorem encodeHexL_length (bs : List Nat) :
    (encodeHexL bs).length = 2 * bs.length := by
  induction bs with
  | nil => rfl
  | cons b bs ih =>
    simp [encodeHexL, hexByte, ih]
    omega

theorem hexDigit_isLowerHex {n : Nat} (h : n < 16) :
    isLowerHexChar (hexDigit n) = true := by
  interval_cases n <;> decide

theorem encodeHexL_chars (bs : List Nat) (h : ∀ b ∈ bs, b < 256) :
    ∀ c ∈ encodeHexL bs, isLowerHexChar c = true := by
  induction bs with
  | nil => simp [encodeHexL]
  | cons b bs ih =>
    intro c hc
    simp only [encodeHexL, hexByte, List.cons_append, List.nil_append,
      List.mem_cons] at hc
    have hb : b < 256 := h b (by simp)
    rcases hc with rfl | hc
    · exact hexDigit_isLowerHex (by omega)
    · rcases hc with rfl | hc
      · exact hexDigit_isLowerHex (by omega)
      · exact ih (fun x hx => h x (by simp [hx])) c hc

theorem peerLines_eq_specPeerLines (k : List Nat) (p : PeerView) :
    peerLines k p = specPeerLines k p := by
  unfold peerLines specPeerLines optLine
  cases p.presharedKey <;> cases p.keepalive <;> cases p.endpointAddr <;>
    cases p.lastHandshake <;> simp

end Api

/-- C4: the `get=1` response stream lists exactly, in order:
`private_key` (if a key pair is set), `listen_port` (if nonzero),
`fwmark` (if set), then for each peer `public_key`, optional
`preshared_key`, optional `persistent_keepalive_interval`, optional
`endpoint`, each `allowed_ip=<addr>/<cidr>`, optional
`last_handshake_time_sec` plus `last_handshake_time_nsec`, then
`rx_bytes` and `tx_bytes`; and every 32-byte key is encoded as a
lowercase 64-character hex string. -/
theorem api_get_spec (d : Api.DeviceView) (key : List Nat)
    (hlen : key.length = 32) (hbytes : ∀ b ∈ key, b < 256) :
    Api.apiGetLines d = Api.apiGetSpecLines d ∧
      (Api.encodeHex key).length = 64 ∧
      ∀ c ∈ (Api.encodeHex key).data, Api.isLowerHexChar c = true := by
  refine ⟨?_, ?_, ?_⟩
  · unfold Api.apiGetLines Api.apiGetSpecLines Api.optLine
    simp only [Api.peerLines_eq_specPeerLines]
    cases d.keyPair <;> cases d.fwmark <;> cases d.listenPort <;> simp
  · show (Api.encodeHexL key).length = 64
    rw [Api.encodeHexL_length, hlen]
  · exact Api.encodeHexL_chars key hbytes

/-- Witness for C4: a device with a key pair, port, fwmark and one fully
populated peer, and the 32-byte key 0xab…ab. -/
theorem api_get_spec_witness :
    Api.apiGetLines Api.c4WitnessDevice =
        Api.apiGetSpecLines Api.c4WitnessDevice ∧
      (Api.encodeHex (List.replicate 32 0xab)).length = 64 ∧
      ∀ c ∈ (Api.encodeHex (List.replicate 32 0xab)).data,
        Api.isLowerHexChar c = true :=
  api_get_spec Api.c4WitnessDevice (List.replicate 32 0xab) (by decide)
    (by decide)

/-- C6 (amended): once the device's closed flag is set, `api_exec`
answers the first command of the connection with `errno=ENOENT` followed
by a blank line, without executing the get or set handler, and then
terminates the command loop, reading and answering no further commands
from that stream. -/
theorem api_exec_closed (setH : Api.DeviceView → List String →
      Nat × Api.DeviceView × Nat)
    (d : Api.DeviceView) (line : String) (rest : List String)
    (hclosed : d.closed = true) :
    Api.apiExec setH d (line :: rest) = Api.errnoLines Api.ENOENT := by
  unfold Api.apiExec
  rw [if_pos hclosed]

/-- Witness for C6: the closed device answering a single `set=1`
command. -/
theorem api_exec_closed_witness :
    Api.apiExec Api.noopSetHandler Api.c6CexDevice ["set=1\n"] =
      Api.errnoLines Api.ENOENT :=
  api_exec_closed Api.noopSetHandler Api.c6CexDevice "set=1\n" [] rfl

/-- Counterexample for C6 as stated: on a closed device a stream with two
commands gets a single `errno=2` answer — the loop stops after the first
nonzero status, so the second command is never answered. -/
theorem api_exec_closed_cex :
    Api.c6CexDevice.closed = true ∧
      Api.apiExec Api.noopSetHandler Api.c6CexDevice
          ["get=1\n", "get=1\n"] = ["errno=2", ""] ∧
      Api.apiExec Api.noopSetHandler Api.c6CexDevice
          ["get=1\n", "get=1\n"] ≠
        ["errno=2", "", "errno=2", ""] := by
  refine ⟨rfl, ?_, ?_⟩ <;>
    simp only [Api.apiExec, Api.c6CexDevice, Api.errnoLines, Api.ENOENT,
      if_true, reduceIte] <;>
    decide

namespace Dev

theorem lookup_mapInsert_self (m : List (Nat × PeerD)) (k : Nat)
    (v : PeerD) : (mapInsert m k v).lookup k = some v := by
  simp [mapInsert, List.lookup]

theorem lookup_mapRemove_self (m : List (Nat × PeerD)) (k : Nat) :
    (mapRemove m k).lookup k = none := by
  rw [List.lookup_eq_none_iff]
  intro p hp
  have hne := (List.mem_filter.mp hp).2
  simp only [decide_not, Bool.not_eq_eq_eq_not, Bool.not_true,
    decide_eq_false_iff_not] at hne
  simpa [bne_iff_ne] using fun he => hne he.symm

theorem lookup_mapRemove_ne (m : List (Nat × PeerD)) (k k' : Nat)
    (h : k' ≠ k) : (mapRemove m k).lookup k' = m.lookup k' := by
  induction m with
  | nil => rfl
  | cons e m ih =>
    obtain ⟨a, b⟩ := e
    by_cases ha : a = k
    · subst ha
      have hbeq : (k' == a) = false := by
        simpa using h
      have ih2 : List.lookup k'
          (List.filter (fun e => !decide (e.1 = a)) m) =
            List.lookup k' m := by
        simpa [mapRemove] using ih
      simp [mapRemove, List.filter_cons, List.lookup_cons, hbeq, ih2]
    · cases hka : k' == a <;>
        simp_all [mapRemove, List.filter_cons, List.lookup_cons, ha]

theorem find?_filter_of_imp {α : Type} (l : List α) (p q : α → Bool)
    (h : ∀ e, p e = true → q e = true) :
    (l.filter q).find? p = l.find? p := by
  induction l with
  | nil => rfl
  | cons e l ih =>
    by_cases hq : q e = true
    · by_cases hp : p e = true <;>
        simp [List.filter_cons, hq, List.find?, hp, ih]
    · have hp : p e = false := by
        cases hpe : p e
        · rfl
        · exact absurd (h e hpe) (by simp_all)
      simp [List.filter_cons, hq, List.find?, hp, ih]

theorem aipLookup_insert (t : List AipEntry) (a c v x y : Nat) :
    aipLookup (aipInsert t a c v) x y =
      if x = a ∧ y = c then some v else aipLookup t x y := by
  unfold aipInsert aipLookup
  by_cases hxy : x = a ∧ y = c
  · obtain ⟨rfl, rfl⟩ := hxy
    simp [List.find?]
  · rw [if_neg hxy]
    have hhead : (decide (a = x) && decide (c = y)) = false := by
      simp only [Bool.and_eq_false_iff, decide_eq_false_iff_not]
      by_cases hx : a = x
      · subst hx
        exact Or.inr fun hcy => hxy ⟨rfl, hcy.symm⟩
      · exact Or.inl hx
    simp only [List.find?, hhead]
    rw [find?_filter_of_imp]
    intro e he
    simp only [Bool.and_eq_true, decide_eq_true_eq] at he
    simp only [Bool.not_eq_true', Bool.and_eq_false_iff,
      decide_eq_false_iff_not]
    obtain ⟨h1, h2⟩ := he
    by_cases hx : e.addr = a
    · exact Or.inr fun hc => hxy ⟨h1 ▸ hx, h2 ▸ hc⟩
    · exact Or.inl hx

theorem aipLookup_foldl_preserved (ips : List (Nat × Nat)) (v x y : Nat) :
    ∀ t, aipLookup t x y = some v →
      aipLookup (ips.foldl (fun t ip => aipInsert t ip.1 ip.2 v) t) x y
        = some v := by
  induction ips with
  | nil => intro t h; exact h
  | cons a ips ih =>
    intro t h
    apply ih
    rw [aipLookup_insert]
    split
    · rfl
    · exact h

theorem aipLookup_foldl_insert (ips : List (Nat × Nat)) (v : Nat) :
    ∀ t, ∀ ip ∈ ips,
      aipLookup (ips.foldl (fun t ip => aipInsert t ip.1 ip.2 v) t)
        ip.1 ip.2 = some v := by
  induction ips with
  | nil => simp
  | cons a ips ih =>
    intro t ip hip
    rw [List.foldl_cons]
    rcases List.mem_cons.mp hip with rfl | hip
    · apply aipLookup_foldl_preserved
      rw [aipLookup_insert]
      simp
    · exact ih _ ip hip

end Dev

/-- C5: after a successful `new_peer` the fresh peer is present in the
by-key map under its public key, in the by-index map under its freshly
generated index, and in the allowed-IP structure for each of its allowed
IPs; after `remove_peer` on an existing peer, its connected endpoint
socket (if any) has been shut down, the peer is absent from all three
indexes, and every other entry of the three indexes is unchanged. -/
theorem new_peer_remove_peer_indexes (d : Dev.DeviceD) (pubKey : Nat)
    (ips : List (Nat × Nat)) (ka psk : Option Nat) :
    (∀ peer d', Dev.newPeer d pubKey ips ka psk = .ok (peer, d') →
      d'.peers.lookup pubKey = some peer ∧
      d'.peersByIdx.lookup peer.index = some peer ∧
      ∀ ip ∈ ips, Dev.aipLookup d'.peersByIp ip.1 ip.2 = some peer.id) ∧
    (∀ peer, d.peers.lookup pubKey = some peer →
      (Dev.removePeer d pubKey).peers.lookup pubKey = none ∧
      (Dev.removePeer d pubKey).peersByIdx.lookup peer.index = none ∧
      (∀ e ∈ (Dev.removePeer d pubKey).peersByIp, e.value ≠ peer.id) ∧
      (∀ c, peer.conn = some c →
        c ∈ (Dev.removePeer d pubKey).shutdownSockets) ∧
      (∀ k, k ≠ pubKey →
        (Dev.removePeer d pubKey).peers.lookup k = d.peers.lookup k) ∧
      (∀ i, i ≠ peer.index →
        (Dev.removePeer d pubKey).peersByIdx.lookup i =
          d.peersByIdx.lookup i) ∧
      (∀ e ∈ d.peersByIp, e.value ≠ peer.id →
        e ∈ (Dev.removePeer d pubKey).peersByIp)) := by
  constructor
  · intro peer d' h
    unfold Dev.newPeer at h
    cases hnext : Lfsr.next d.nextIndex with
    | none => rw [hnext] at h; exact absurd h (by simp)
    | some q =>
      rw [hnext] at h
      cases hkp : d.keyPair with
      | none => rw [hkp] at h; exact absurd h (by simp)
      | some kp =>
        rw [hkp] at h
        simp only [Except.ok.injEq, Prod.mk.injEq] at h
        obtain ⟨hpeer, hd'⟩ := h
        subst hpeer
        subst hd'
        refine ⟨Dev.lookup_mapInsert_self _ _ _, ?_, ?_⟩
        · exact Dev.lookup_mapInsert_self _ _ _
        · intro ip hip
          exact Dev.aipLookup_foldl_insert ips _ _ ip hip
  · intro peer h
    rcases hconn : peer.conn with _ | c0 <;>
      simp only [Dev.removePeer, h, hconn]
    case none =>
      refine ⟨Dev.lookup_mapRemove_self _ _,
        Dev.lookup_mapRemove_self _ _, ?_, ?_, ?_, ?_, ?_⟩
      · intro e he
        have := (List.mem_filter.mp he).2
        simpa using this
      · intro c hc
        exact absurd hc (by simp)
      · intro k hk
        exact Dev.lookup_mapRemove_ne _ _ _ hk
      · intro i hi
        exact Dev.lookup_mapRemove_ne _ _ _ hi
      · intro e he hev
        exact List.mem_filter.mpr ⟨he, by simpa using hev⟩
    case some =>
      refine ⟨Dev.lookup_mapRemove_self _ _,
        Dev.lookup_mapRemove_self _ _, ?_, ?_, ?_, ?_, ?_⟩
      · intro e he
        have := (List.mem_filter.mp he).2
        simpa using this
      · intro c hc
        injection hc with hcc
        subst hcc
        simp
      · intro k hk
        exact Dev.lookup_mapRemove_ne _ _ _ hk
      · intro i hi
        exact Dev.lookup_mapRemove_ne _ _ _ hi
      · intro e he hev
        exact List.mem_filter.mpr ⟨he, by simpa using hev⟩

/-- Witness for C5: removing the one configured peer of the concrete
device clears it from both maps and shuts down its connected socket. -/
theorem new_peer_remove_peer_indexes_witness :
    (Dev.removePeer Dev.witnessDevice 21).peers.lookup 21 = none ∧
      (Dev.removePeer Dev.witnessDevice 21).peersByIdx.lookup 5 = none ∧
      33 ∈ (Dev.removePeer Dev.witnessDevice 21).shutdownSockets := by
  obtain ⟨-, h2⟩ :=
    new_peer_remove_peer_indexes Dev.witnessDevice 21 [(0x0a000000, 24)]
      none none
  obtain ⟨ha, hb, -, hd, -⟩ := h2 Dev.witnessPeerD (by decide)
  exact ⟨ha, hb, hd 33 rfl⟩

/-- C9: `set_key` with a private key whose derived public key differs
from the stored one (and whose key is compatible with every peer, so the
unimplemented bad-peer path is not taken) installs the new key pair,
rebuilds the rate limiter with threshold `HANDSHAKE_RATE_LIMIT = 100`
handshakes per second, and updates the static keys and rate limiter of
every existing peer's tunnel, leaving everything else unchanged; if the
derived public key equals the stored one, the device is returned
entirely unchanged. -/
theorem set_key_spec (compatible : Nat → Nat → Bool)
    (derivePub : Nat → Nat) (d : Dev.DeviceD) (k : Nat)
    (hall : ∀ kv ∈ d.peers, compatible k kv.2.peerStaticPublic = true) :
    Dev.HANDSHAKE_RATE_LIMIT = 100 ∧
      (d.keyPair.map (·.2) ≠ some (derivePub k) →
        Dev.setKey compatible derivePub d k =
          some { d with
            keyPair := some (k, derivePub k)
            rateLimiter := some ⟨derivePub k, Dev.HANDSHAKE_RATE_LIMIT⟩
            peers := d.peers.map fun kv => (kv.1, { kv.2 with
              tunPrivate := k
              tunPublic := derivePub k
              tunRateLimiter :=
                some ⟨derivePub k, Dev.HANDSHAKE_RATE_LIMIT⟩ }) }) ∧
      (d.keyPair.map (·.2) = some (derivePub k) →
        Dev.setKey compatible derivePub d k = some d) := by
  refine ⟨rfl, ?_, ?_⟩
  · intro hne
    simp only [Dev.setKey]
    rw [if_neg fun hh => hne hh.symm]
    have hall2 : ((d.peers.map fun kv =>
        (kv.1, Dev.setStaticPrivate compatible k (derivePub k)
          (some ⟨derivePub k, Dev.HANDSHAKE_RATE_LIMIT⟩) kv.2,
          kv.2)).all fun r => r.2.1.isSome) = true := by
      rw [List.all_eq_true]
      intro r hr
      rcases List.mem_map.mp hr with ⟨kv, hkv, rfl⟩
      simp [Dev.setStaticPrivate, hall kv hkv]
    rw [if_pos hall2]
    have hpeers : ((d.peers.map fun kv =>
        (kv.1, Dev.setStaticPrivate compatible k (derivePub k)
          (some ⟨derivePub k, Dev.HANDSHAKE_RATE_LIMIT⟩) kv.2,
          kv.2)).map fun r => (r.1, r.2.1.getD r.2.2)) =
        d.peers.map fun kv => (kv.1, { kv.2 with
          tunPrivate := k
          tunPublic := derivePub k
          tunRateLimiter :=
            some ⟨derivePub k, Dev.HANDSHAKE_RATE_LIMIT⟩ }) := by
      rw [List.map_map]
      apply List.map_congr_left
      intro kv hkv
      simp [Function.comp, Dev.setStaticPrivate, hall kv hkv]
    rw [hpeers]
  · intro heq
    simp only [Dev.setKey]
    rw [if_pos heq.symm]

/-- Witness for C9: rotating the concrete device's key from private 11
to private 30 (public keys modelled by `x + 1`) updates the key pair,
the rate limiter and the single peer's tunnel. -/
theorem set_key_spec_witness :
    Dev.setKey (fun _ _ => true) (fun x => x + 1) Dev.witnessDevice 30 =
      some { Dev.witnessDevice with
        keyPair := some (30, 31)
        rateLimiter := some ⟨31, Dev.HANDSHAKE_RATE_LIMIT⟩
        peers := Dev.witnessDevice.peers.map fun kv => (kv.1, { kv.2 with
          tunPrivate := 30
          tunPublic := 31
          tunRateLimiter := some ⟨31, Dev.HANDSHAKE_RATE_LIMIT⟩ }) } :=
  (set_key_spec (fun _ _ => true) (fun x => x + 1) Dev.witnessDevice 30
    (fun _ _ => rfl)).2.1 (by decide)
